import Mathlib

/-
Verification development for the open-horizon-mcp server.

Shallow embedding of:
  * src/services/common.ts   (getErrorMessage, makeHttpRequest)
  * src/tools/tool-exchange.ts (ToolExchange: listResources, getResourceDetails,
    createResource, deleteResource, getResourceStatus, toolCallback)
  * src/server.ts            (express route registrations, session registry,
    POST /mcp handler, handleSessionRequest, transport callbacks)

JavaScript values returned by the tool layer are modelled by the `Json`
inductive; JS truthiness of optional strings and payloads is modelled
explicitly; the remote Exchange API (global `fetch`) is an oracle
`String → FetchOutcome` mapping a URL to the outcome of the one request
the Resource Client makes.  Every HTTP request issued is recorded in the
returned call list so that claims about "no network call" are provable.
-/

/-- JSON values (the bodies parsed by `response.json()` and the envelopes
built by the tool layer). -/
inductive Json where
  | str : String → Json
  | num : Int → Json
  | bool : Bool → Json
  | null : Json
  | arr : List Json → Json
  | obj : List (String × Json) → Json

/-- JS test `response && typeof response === 'object' && 'content' in response`:
true exactly for a JSON object with a top-level "content" key (null is falsy,
scalars are not objects, arrays have no "content" property). -/
def hasContentKey : Json → Bool
  | Json.obj kvs => kvs.any (fun kv => kv.1 == "content")
  | _ => false

mutual

/-- Stands for `JSON.stringify(v, null, 2)`; the claims never depend on the
exact rendered text, only that the value is serialized into a string, so the
pretty-printing whitespace is not reproduced. -/
def stringify : Json → String
  | Json.str s => "\"" ++ s ++ "\""
  | Json.num n => toString n
  | Json.bool b => if b then "true" else "false"
  | Json.null => "null"
  | Json.arr xs => "[" ++ stringifyArr xs ++ "]"
  | Json.obj kvs => "\x7b" ++ stringifyObj kvs ++ "\x7d"

def stringifyArr : List Json → String
  | [] => ""
  | [x] => stringify x
  | x :: y :: xs => stringify x ++ "," ++ stringifyArr (y :: xs)

def stringifyObj : List (String × Json) → String
  | [] => ""
  | [(k, v)] => "\"" ++ k ++ "\":" ++ stringify v
  | (k, v) :: kv :: kvs => "\"" ++ k ++ "\":" ++ stringify v ++ "," ++ stringifyObj (kv :: kvs)

end

/-- JS template interpolation of a possibly-undefined string variable:
an undefined value prints as "undefined". -/
def jsStr : Option String → String
  | none => "undefined"
  | some s => s

/-- JS falsiness of an optional string (`!name`): undefined or the empty
string. -/
def strFalsy : Option String → Bool
  | none => true
  | some s => s == ""

/-- JS truthiness of an optional string (`if (policyType && ...)`). -/
def strTruthy (o : Option String) : Bool := !(strFalsy o)

/-- JS falsiness of a JSON value (`!data`). -/
def jsonFalsy : Json → Bool
  | Json.null => true
  | Json.bool b => !b
  | Json.num n => n == 0
  | Json.str s => s == ""
  | _ => false

/-- JS falsiness of the optional `data` payload. -/
def dataFalsy : Option Json → Bool
  | none => true
  | some j => jsonFalsy j

/-- The `{content: [{type: "text", text: t}]}` envelope built throughout the
tool layer. -/
def textEnvelope (t : String) : Json :=
  Json.obj [("content", Json.arr [Json.obj [("type", Json.str ("text")), ("text", Json.str t)]])]

/-- Argument passed to `getErrorMessage(err: any)`: either a JS `Error`
instance (carrying a message) or any other value — in this codebase always a
plain string. -/
inductive ErrValue where
  | errorObj : String → ErrValue
  | stringVal : String → ErrValue

/-- src/services/common.ts `getErrorMessage`: an `Error` instance yields an
envelope carrying its message; any other value (including the strings this
codebase passes) yields the fixed text "An unknown error occurred.". -/
def getErrorMessage : ErrValue → Json
  | ErrValue.errorObj m => textEnvelope ("Error fetching data: " ++ m)
  | ErrValue.stringVal _ => textEnvelope ("An unknown error occurred.")

/-- One recorded outbound HTTP request (url plus the headers sent). -/
structure HttpCall where
  url : String
  headers : List (String × String)
deriving DecidableEq

/-- Outcome of `fetch(url)`: a response (status, statusText, parsed JSON
body) or a rejected promise whose `err.message` may be undefined. -/
inductive FetchOutcome where
  | resp : Nat → String → Json → FetchOutcome
  | netErr : Option String → FetchOutcome

/-- JS `err.message || "Unknown error"`. -/
def jsOrUnknown : Option String → String
  | none => "Unknown error"
  | some s => if s == "" then "Unknown error" else s

/-- src/services/common.ts `makeHttpRequest`: merges the caller headers onto
`Accept: application/json`, performs the single fetch, and returns either the
parsed 2xx body, or (for a non-ok status or a rejected fetch) the value of
`getErrorMessage` applied to a message STRING — never raising.  The one call
made is recorded in the second component. -/
def makeHttpRequest (env : String → FetchOutcome) (url : String)
    (headers : List (String × String)) : Json × List HttpCall :=
  let finalHeaders := ("Accept", "application/json") :: headers
  let result : Json :=
    match env url with
    | FetchOutcome.resp status statusText body =>
        if 200 ≤ status ∧ status ≤ 299 then body
        else getErrorMessage (ErrValue.stringVal
          ("Error fetching data: " ++ toString status ++ " " ++ statusText))
    | FetchOutcome.netErr msg =>
        getErrorMessage (ErrValue.stringVal ("Error fetching data: " ++ jsOrUnknown msg))
  (result, [⟨url, finalHeaders⟩])

/-- Configuration read from the environment (EXCHANGE_URL, EXCHANGE_ORG,
EXCHANGE_CREDENTIAL). -/
structure Config where
  exchangeUrl : String
  org : String
  credential : String

/-- The `{Authorization: Basic <credential>}` header object passed by every
Exchange call in tool-exchange.ts. -/
def authHeader (cfg : Config) : List (String × String) :=
  [("Authorization", "Basic " ++ cfg.credential)]

/-- src/tools/tool-exchange.ts `listResources`.  Throws (modelled as
`Except.error`) for a target outside the three known values — this check
sits BEFORE the try block, so the error is not converted to an envelope.
Inside: for target "policy" with policyType "node", a falsy name returns a
placeholder envelope with no fetch, a truthy name fetches the single
node-policy endpoint; any other policyType fetches the policy collection;
other targets fetch the plural collection.  A fetched value that already has
a top-level "content" key is returned unmodified, otherwise it is wrapped in
a text envelope. -/
def listResources (cfg : Config) (env : String → FetchOutcome) (target : String)
    (name policyType : Option String) : Except String (Json × List HttpCall) :=
  if ¬ (target = "service" ∨ target = "node" ∨ target = "policy") then
    Except.error ("Invalid target type: " ++ target ++
      ". Must be one of \x27service\x27, \x27node\x27, or \x27policy\x27.")
  else
    if target = "policy" then
      if policyType = some ("node") then
        if strFalsy name then
          Except.ok (textEnvelope ("Details for " ++ target ++ " named " ++ jsStr name), [])
        else
          let rc := makeHttpRequest env
            (cfg.exchangeUrl ++ "/" ++ cfg.org ++ "/business/policies/nodes/" ++
              jsStr name ++ "/policy") (authHeader cfg)
          if hasContentKey rc.1 then Except.ok (rc.1, rc.2)
          else Except.ok (textEnvelope (stringify rc.1), rc.2)
      else
        let rc := makeHttpRequest env
          (cfg.exchangeUrl ++ "/" ++ cfg.org ++ "/business/policies") (authHeader cfg)
        if hasContentKey rc.1 then Except.ok (rc.1, rc.2)
        else Except.ok (textEnvelope (stringify rc.1), rc.2)
    else
      -- the ternary `target === 'policy' ? ... : ...` is in its else arm here
      let rc := makeHttpRequest env
        (cfg.exchangeUrl ++ "/" ++ cfg.org ++ "/" ++ target ++ "s") (authHeader cfg)
      if hasContentKey rc.1 then Except.ok (rc.1, rc.2)
      else Except.ok (textEnvelope (stringify rc.1), rc.2)

/-- The `[Fix]` coercion at the top of `getResourceDetails`:
`if (policyType && target !== 'policy') target = 'policy'`. -/
def normalizeTarget (target : String) (policyType : Option String) : String :=
  if strTruthy policyType = true ∧ ¬ target = "policy" then "policy" else target

/-- src/tools/tool-exchange.ts `getResourceDetails`.  After the target
coercion: policy/node → node-policy by name (placeholder envelope when name
is falsy); policy/service → business policy by name; policy/deployment →
service policy by name; other policyType → the policy collection; service →
single service by name; node → the node-details collection regardless of
name.  Every fetched result is returned RAW — success bodies are not wrapped
into an envelope. -/
def getResourceDetails (cfg : Config) (env : String → FetchOutcome) (target0 : String)
    (name policyType : Option String) : Json × List HttpCall :=
  let target := normalizeTarget target0 policyType
  if target = "policy" then
    if policyType = some ("node") then
      if strFalsy name then
        (textEnvelope ("Details for " ++ target ++ " named " ++ jsStr name), [])
      else
        makeHttpRequest env
          (cfg.exchangeUrl ++ "/" ++ cfg.org ++ "/nodes/" ++ jsStr name ++ "/policy")
          (authHeader cfg)
    else if policyType = some ("service") then
      if strFalsy name then
        (textEnvelope ("Details for " ++ jsStr policyType ++ " " ++ target ++ " name is required"), [])
      else
        makeHttpRequest env
          (cfg.exchangeUrl ++ "/" ++ cfg.org ++ "/business/policies/" ++ jsStr name)
          (authHeader cfg)
    else if policyType = some ("deployment") then
      if strFalsy name then
        (textEnvelope ("Details for " ++ jsStr policyType ++ " " ++ target ++ " name is required"), [])
      else
        makeHttpRequest env
          (cfg.exchangeUrl ++ "/" ++ cfg.org ++ "/services/" ++ jsStr name ++ "/policy")
          (authHeader cfg)
    else
      makeHttpRequest env
        (cfg.exchangeUrl ++ "/" ++ cfg.org ++ "/business/policies") (authHeader cfg)
  else if target = "service" then
    if strFalsy name then
      (textEnvelope ("Details for " ++ target ++ " named " ++ jsStr name), [])
    else
      makeHttpRequest env
        (cfg.exchangeUrl ++ "/" ++ cfg.org ++ "/services/" ++ jsStr name) (authHeader cfg)
  else if target = "node" then
    makeHttpRequest env
      (cfg.exchangeUrl ++ "/" ++ cfg.org ++ "/node-details") (authHeader cfg)
  else
    -- the ternary `target === 'policy' ? ... : ...` is in its else arm here
    makeHttpRequest env
      (cfg.exchangeUrl ++ "/" ++ cfg.org ++ "/" ++ target ++ "s") (authHeader cfg)

/-- src/tools/tool-exchange.ts `createResource`: placeholder acknowledgment,
no network call. -/
def createResource (target : String) (data : Option Json) : Json × List HttpCall :=
  (textEnvelope ("Created " ++ target ++ " with provided data"), [])

/-- src/tools/tool-exchange.ts `deleteResource`: placeholder acknowledgment,
no network call. -/
def deleteResource (target : String) (name : Option String) : Json × List HttpCall :=
  (textEnvelope ("Deleted " ++ target ++ " named " ++ jsStr name), [])

/-- src/tools/tool-exchange.ts `getResourceStatus`: for target "node" the
node-status endpoint is fetched and its result returned raw; every other
target gets a placeholder envelope with no fetch. -/
def getResourceStatus (cfg : Config) (env : String → FetchOutcome) (target : String)
    (name : Option String) : Json × List HttpCall :=
  if target = "node" then
    makeHttpRequest env
      (cfg.exchangeUrl ++ "/" ++ cfg.org ++ "/nodes/" ++ jsStr name ++ "/status")
      (authHeader cfg)
  else
    (textEnvelope ("Status for " ++ target ++ " named " ++ jsStr name), [])

/-- The destructured fields of the params object received by `toolCallback`. -/
structure Params where
  action : String
  target : String
  policyType : Option String
  name : Option String
  data : Option Json

/-- src/tools/tool-exchange.ts `toolCallback`: the switch on `action` with the
`!name` / `!data` guards before details/create/delete/status, and the
unknown-action default.  The guarded branches return before any handler (and
hence any network call) runs.  `listResources`'s throw propagates (the await
is not wrapped), so the result is `Except`. -/
def toolCallback (cfg : Config) (env : String → FetchOutcome) (p : Params) :
    Except String (Json × List HttpCall) :=
  if p.action = "list" then
    listResources cfg env p.target p.name p.policyType
  else if p.action = "details" then
    if strFalsy p.name then
      Except.ok (getErrorMessage (ErrValue.stringVal ("Name is required for details action")), [])
    else Except.ok (getResourceDetails cfg env p.target p.name p.policyType)
  else if p.action = "create" then
    if dataFalsy p.data then
      Except.ok (getErrorMessage (ErrValue.stringVal ("Data is required for create action")), [])
    else Except.ok (createResource p.target p.data)
  else if p.action = "delete" then
    if strFalsy p.name then
      Except.ok (getErrorMessage (ErrValue.stringVal ("Name is required for delete action")), [])
    else Except.ok (deleteResource p.target p.name)
  else if p.action = "status" then
    if strFalsy p.name then
      Except.ok (getErrorMessage (ErrValue.stringVal ("Name is required for status action")), [])
    else Except.ok (getResourceStatus cfg env p.target p.name)
  else
    Except.ok (getErrorMessage (ErrValue.stringVal ("Unknown action: " ++ p.action)), [])

/-- A registered session: the McpServer and transport bound at creation (the
instances are modelled by numeric handles), plus the optionally-stored
initial headers. -/
structure SessionEntry where
  server : Nat
  transport : Nat
  latestHeaders : Option (List (String × String))
deriving DecidableEq

/-- The module-level `sessions: Record<string, SessionEntry>` table of
src/server.ts.  A plain JS record holds at most one value per key; lookup is
function application. -/
def Registry := String → Option SessionEntry

/-- The values captured by the closure of one `POST /mcp` initialization:
the fresh session id from `randomUUID()`, the new server and transport
instances, and the headers copied at the top of the handler. -/
structure Creation where
  sid : String
  server : Nat
  transport : Nat
  initialHeaders : List (String × String)
deriving DecidableEq

/-- The three registry mutations of src/server.ts, all scoped to one
creation closure:
  * `explicitStore` — `sessions[newSessionId] = { server, transport }`
    (line after `server.connect`), which stores no `latestHeaders`;
  * `initializedCallback` — the transport's `onsessioninitialized`,
    `sessions[sid] = { server, transport, latestHeaders: initialHeaders }`;
  * `closeSignal` — `transport.onclose` deleting
    `sessions[transport.sessionId]` once the transport has its id. -/
inductive SessionEvent where
  | explicitStore : SessionEvent
  | initializedCallback : SessionEvent
  | closeSignal : SessionEvent
deriving DecidableEq

/-- Apply one registry mutation.  Deleting an absent key is a no-op, which
coincides with overwriting the key with `none`. -/
def applyEvent (c : Creation) (e : SessionEvent) (reg : Registry) : Registry :=
  match e with
  | SessionEvent.explicitStore =>
      fun k => if k = c.sid then some ⟨c.server, c.transport, none⟩ else reg k
  | SessionEvent.initializedCallback =>
      fun k => if k = c.sid then some ⟨c.server, c.transport, some c.initialHeaders⟩ else reg k
  | SessionEvent.closeSignal =>
      fun k => if k = c.sid then none else reg k

/-- Run an interleaving of registry mutations (the event-loop order in which
the explicit store, the initialized callback and close signals happen to
fire). -/
def runTrace (tr : List (Creation × SessionEvent)) (reg : Registry) : Registry :=
  match tr with
  | [] => reg
  | (c, e) :: rest => runTrace rest (applyEvent c e reg)

/-- HTTP methods used by the express app. -/
inductive Method where
  | get : Method
  | post : Method
  | delete : Method
deriving DecidableEq

def methodName : Method → String
  | Method.get => "GET"
  | Method.post => "POST"
  | Method.delete => "DELETE"

/-- The `mcp-session-id` request header: absent, a single string, or an
array of strings (node collapses repeated headers into an array). -/
inductive HeaderVal where
  | absent : HeaderVal
  | single : String → HeaderVal
  | multi : List String → HeaderVal
deriving DecidableEq

/-- The normalization done in both `POST /mcp` and `handleSessionRequest`:
a string is used as-is, an array contributes its first element, anything
else is undefined. -/
def headerSessionId : HeaderVal → Option String
  | HeaderVal.absent => none
  | HeaderVal.single s => some s
  | HeaderVal.multi l => l.head?

/-- JS falsiness of the raw header value (`!sessionIdHeader`): undefined and
the empty string are falsy; an array — even an empty one — is truthy. -/
def headerFalsy : HeaderVal → Bool
  | HeaderVal.absent => true
  | HeaderVal.single s => s == ""
  | HeaderVal.multi _ => false

/-- An inbound HTTP request as the routing layer sees it. -/
structure HttpRequest where
  method : Method
  path : String
  mcpSessionId : HeaderVal
  isInitializeRequest : Bool
  reqHeaders : List (String × String)

/-- What a handler does with the response: send a text response, send a JSON
response, or hand the request to a session transport
(`transport.handleRequest`). -/
inductive RouterResult where
  | respond : Nat → Option String → String → RouterResult
  | respondJson : Nat → Json → RouterResult
  | forward : Nat → RouterResult

/-- The 400 body sent by `POST /mcp` when neither a valid session nor an
initialize request is present. -/
def badSessionBody : Json :=
  Json.obj [("jsonrpc", Json.str ("2.0")),
    ("error", Json.obj [("code", Json.num (-32000)),
      ("message", Json.str ("Bad Request: No valid session ID provided"))]),
    ("id", Json.null)]

/-- src/server.ts `handleSessionRequest` (the function registered for
GET/DELETE /mcp near the bottom of the file): 400 when the normalized
session id is falsy or unknown, otherwise forward to the session's bound
transport. -/
def handleSessionRequest (reg : Registry) (req : HttpRequest) : RouterResult :=
  match headerSessionId req.mcpSessionId with
  | none => RouterResult.respond 400 none ("Invalid or missing session ID")
  | some sid =>
      if sid = "" then RouterResult.respond 400 none ("Invalid or missing session ID")
      else
        match reg sid with
        | none => RouterResult.respond 400 none ("Invalid or missing session ID")
        | some e => RouterResult.forward e.transport

/-- src/server.ts `app.post(MCP_PATH, ...)`.  Case 1: a truthy session id
matching a stored session reuses it.  Case 2: a falsy raw header together
with an initialize body creates a new session — the handler synchronously
performs the explicit `sessions[newSessionId] = { server, transport }` store
(the transport's own `onsessioninitialized` write is the separate
`initializedCallback` event, fired while the forwarded request is handled).
Otherwise: 400 with the -32000 JSON body and no registry mutation.
`freshSid`, `srvId`, `trpId` stand for `randomUUID()` and the two `new`
instances. -/
def postMcp (reg : Registry) (freshSid : String) (srvId trpId : Nat)
    (req : HttpRequest) : RouterResult × Registry :=
  let sessionId := headerSessionId req.mcpSessionId
  let existing : Option SessionEntry :=
    match sessionId with
    | none => none
    | some sid => if sid = "" then none else reg sid
  match existing with
  | some e => (RouterResult.forward e.transport, reg)
  | none =>
      if headerFalsy req.mcpSessionId = true ∧ req.isInitializeRequest = true then
        let c : Creation := ⟨freshSid, srvId, trpId, req.reqHeaders⟩
        (RouterResult.forward trpId, applyEvent c SessionEvent.explicitStore reg)
      else
        (RouterResult.respondJson 400 badSessionBody, reg)

/-- Tags for the five handlers registered on the express app, in source
order. -/
inductive HandlerTag where
  | mcpGet405 : HandlerTag
  | mcpDelete405 : HandlerTag
  | mcpPost : HandlerTag
  | mcpGetSession : HandlerTag
  | mcpDeleteSession : HandlerTag
deriving DecidableEq

/-- The express route table in REGISTRATION ORDER (src/server.ts top to
bottom): the two 405 handlers first, then the POST handler, then the two
`handleSessionRequest` registrations.  The logging middleware calls
`next()` and does not affect routing. -/
def appRoutes : List (Method × String × HandlerTag) :=
  [(Method.get, "/mcp", HandlerTag.mcpGet405),
   (Method.delete, "/mcp", HandlerTag.mcpDelete405),
   (Method.post, "/mcp", HandlerTag.mcpPost),
   (Method.get, "/mcp", HandlerTag.mcpGetSession),
   (Method.delete, "/mcp", HandlerTag.mcpDeleteSession)]

/-- Express dispatch: the FIRST registered route matching method and path
handles the request (none of these handlers calls `next()`). -/
def findRoute (m : Method) (p : String) : Option HandlerTag :=
  (appRoutes.find? (fun r => r.1 = m ∧ r.2.1 = p)).map (fun r => r.2.2)

/-- The whole express app over one request: dispatch to the first matching
route; an unmatched request gets express's default 404 page. -/
def serverDispatch (reg : Registry) (freshSid : String) (srvId trpId : Nat)
    (req : HttpRequest) : RouterResult × Registry :=
  match findRoute req.method req.path with
  | some HandlerTag.mcpGet405 =>
      (RouterResult.respond 405 (some ("POST")) ("Method Not Allowed"), reg)
  | some HandlerTag.mcpDelete405 =>
      (RouterResult.respond 405 (some ("POST")) ("Method Not Allowed"), reg)
  | some HandlerTag.mcpPost => postMcp reg freshSid srvId trpId req
  | some HandlerTag.mcpGetSession => (handleSessionRequest reg req, reg)
  | some HandlerTag.mcpDeleteSession => (handleSessionRequest reg req, reg)
  | none =>
      (RouterResult.respond 404 none ("Cannot " ++ methodName req.method ++ " " ++ req.path), reg)

/-- Whether `needle` starts `hay`. -/
def startsWithChars : List Char → List Char → Bool
  | _, [] => true
  | [], _ :: _ => false
  | a :: as, b :: bs => a == b && startsWithChars as bs

/-- Whether `needle` occurs anywhere in `hay`. -/
def hasSubChars : List Char → List Char → Bool
  | [], needle => needle.isEmpty
  | c :: rest, needle => startsWithChars (c :: rest) needle || hasSubChars rest needle

/-- Substring occurrence test on strings (used to state what an error
message does or does not contain). -/
def strHasSub (hay needle : String) : Bool := hasSubChars hay.toList needle.toList

/-- Concrete configuration used in witnesses and counterexamples. -/
def cfg0 : Config := ⟨"EX", "org", "cred"⟩

/-- The headers every Exchange call sends under `cfg0`. -/
def stdHeaders : List (String × String) :=
  [("Accept", "application/json"), ("Authorization", "Basic cred")]

/-- Remote oracle answering 404 Not Found to every request. -/
def env404 : String → FetchOutcome := fun _ => FetchOutcome.resp 404 ("Not Found") Json.null

/-- Remote oracle rejecting every request at the transport level. -/
def envRefused : String → FetchOutcome :=
  fun _ => FetchOutcome.netErr (some ("connect ECONNREFUSED 127.0.0.1:80"))

/-- Remote oracle answering 200 with the same JSON body to every request. -/
def constOk (j : Json) : String → FetchOutcome := fun _ => FetchOutcome.resp 200 ("OK") j

/-- Concrete 2xx body without a top-level "content" key. -/
def ownerBody : Json := Json.obj [("owner", Json.str ("x"))]

/-- Remote oracle answering 200 with `ownerBody`. -/
def envOkOwner : String → FetchOutcome := constOk ownerBody

/-- A registry holding exactly one session, "abc", bound to transport 7. -/
def reg1 : Registry := fun sid => if sid = "abc" then some ⟨1, 7, none⟩ else none

/-- The empty registry at process start. -/
def emptyReg : Registry := fun _ => none

/-- Every envelope has a top-level "content" key. -/
theorem hasContentKey_textEnvelope (t : String) : hasContentKey (textEnvelope t) = true := rfl

/-- The Resource Client records exactly one outbound call, to the requested
url with the merged headers. -/
theorem makeHttpRequest_calls (env : String → FetchOutcome) (url : String)
    (headers : List (String × String)) :
    (makeHttpRequest env url headers).2 = [⟨url, ("Accept", "application/json") :: headers⟩] := rfl

/-- For a target among the three known values, `listResources` never reaches
its throw: it returns a value. -/
theorem listResources_valid_isOk (cfg : Config) (env : String → FetchOutcome)
    (target : String) (name pt : Option String)
    (h : target = "service" ∨ target = "node" ∨ target = "policy") :
    ∃ v, listResources cfg env target name pt = Except.ok v := by
  unfold listResources
  rw [if_neg (not_not_intro h)]
  dsimp only
  split
  · split
    · split
      · exact ⟨_, rfl⟩
      · split
        · exact ⟨_, rfl⟩
        · exact ⟨_, rfl⟩
    · split
      · exact ⟨_, rfl⟩
      · exact ⟨_, rfl⟩
  · split
    · exact ⟨_, rfl⟩
    · exact ⟨_, rfl⟩

/-- Every value `listResources` returns has a top-level "content" key: error
envelopes and placeholders are envelopes, a fetched body is passed through
only when it already has one, and everything else is wrapped. -/
theorem listResources_ok_hasContentKey (cfg : Config) (env : String → FetchOutcome)
    (target : String) (name pt : Option String) :
    ∀ r cs, listResources cfg env target name pt = Except.ok (r, cs) → hasContentKey r = true := by
  intro r cs h
  unfold listResources at h
  dsimp only at h
  split at h
  · exact Except.noConfusion h
  · split at h
    · split at h
      · split at h
        · simp only [Except.ok.injEq, Prod.mk.injEq] at h
          rw [← h.1]
          exact hasContentKey_textEnvelope _
        · split at h
          · simp only [Except.ok.injEq, Prod.mk.injEq] at h
            rw [← h.1]
            assumption
          · simp only [Except.ok.injEq, Prod.mk.injEq] at h
            rw [← h.1]
            exact hasContentKey_textEnvelope _
      · split at h
        · simp only [Except.ok.injEq, Prod.mk.injEq] at h
          rw [← h.1]
          assumption
        · simp only [Except.ok.injEq, Prod.mk.injEq] at h
          rw [← h.1]
          exact hasContentKey_textEnvelope _
    · split at h
      · simp only [Except.ok.injEq, Prod.mk.injEq] at h
        rw [← h.1]
        assumption
      · simp only [Except.ok.injEq, Prod.mk.injEq] at h
        rw [← h.1]
        exact hasContentKey_textEnvelope _

/-- C1: the claim says a GET or DELETE /mcp request with a registered
`mcp-session-id` header is forwarded to that session's bound transport, and
otherwise gets a 400.  In the source the two `res.status(405)` handlers are
registered on the same method/path BEFORE `handleSessionRequest`, so express
dispatches every GET and DELETE /mcp to them: the response is always 405
"Method Not Allowed" (registry untouched), even for a registered session,
and the later-registered `handleSessionRequest` — which would indeed forward
for a known session and 400 otherwise — is unreachable. -/
theorem c1_get_delete_mcp_shadowed :
    findRoute Method.get ("/mcp") = some HandlerTag.mcpGet405 ∧
    findRoute Method.delete ("/mcp") = some HandlerTag.mcpDelete405 ∧
    serverDispatch reg1 ("f") 9 9 ⟨Method.get, "/mcp", HeaderVal.single ("abc"), false, []⟩
      = (RouterResult.respond 405 (some ("POST")) ("Method Not Allowed"), reg1) ∧
    serverDispatch reg1 ("f") 9 9 ⟨Method.delete, "/mcp", HeaderVal.single ("abc"), false, []⟩
      = (RouterResult.respond 405 (some ("POST")) ("Method Not Allowed"), reg1) ∧
    serverDispatch reg1 ("f") 9 9 ⟨Method.get, "/mcp", HeaderVal.absent, false, []⟩
      = (RouterResult.respond 405 (some ("POST")) ("Method Not Allowed"), reg1) ∧
    handleSessionRequest reg1 ⟨Method.get, "/mcp", HeaderVal.single ("abc"), false, []⟩
      = RouterResult.forward 7 ∧
    handleSessionRequest reg1 ⟨Method.get, "/mcp", HeaderVal.absent, false, []⟩
      = RouterResult.respond 400 none ("Invalid or missing session ID") :=
  ⟨rfl, rfl, rfl, rfl, rfl, rfl, rfl⟩

/-- C2: the claim says a non-2xx status yields an error envelope whose
message contains the status code and status text, and a transport failure
yields the same envelope shape carrying the underlying message.  The code
does build the string "Error fetching data: 404 Not Found" — but passes it
to `getErrorMessage`, whose non-`Error` branch discards it: the returned
envelope reads "An unknown error occurred.", containing neither the status
code, nor the status text, nor the underlying transport message.  (The
envelope shape and the no-raise behavior do hold.) -/
theorem c2_error_envelope_drops_status :
    (makeHttpRequest env404 ("EX/org/services") []).1
      = textEnvelope ("An unknown error occurred.") ∧
    strHasSub ("An unknown error occurred.") ("404") = false ∧
    strHasSub ("An unknown error occurred.") ("Not Found") = false ∧
    getErrorMessage (ErrValue.stringVal ("Error fetching data: 404 Not Found"))
      = textEnvelope ("An unknown error occurred.") ∧
    strHasSub ("Error fetching data: 404 Not Found") ("404") = true ∧
    (makeHttpRequest envRefused ("EX/org/services") []).1
      = textEnvelope ("An unknown error occurred.") ∧
    strHasSub ("An unknown error occurred.") ("ECONNREFUSED") = false :=
  ⟨rfl, by decide, by decide, rfl, by decide, rfl, by decide⟩

/-- C4: the claim says GET /health returns 200 when serving-ready.  The
express app registers no /health route at all (README and the Dockerfile
HEALTHCHECK expect one), so the request falls through to express's default
404 handler. -/
theorem c4_health_route_missing :
    findRoute Method.get ("/health") = none ∧
    serverDispatch emptyReg ("f") 0 0 ⟨Method.get, "/health", HeaderVal.absent, false, []⟩
      = (RouterResult.respond 404 none ("Cannot GET /health"), emptyReg) :=
  ⟨rfl, rfl⟩

/-- C3 counterexample: a successful details fetch does NOT come back in the
`{content: [...]}` envelope — `getResourceDetails` returns the remote 2xx
JSON body raw.  With the remote answering `{"owner": "x"}`, the dispatcher
result is that object itself, which has no top-level "content" key. -/
theorem c3_counterexample :
    toolCallback cfg0 envOkOwner ⟨"details", "service", none, some ("foo"), none⟩
      = Except.ok (ownerBody, [⟨"EX/org/services/foo", stdHeaders⟩]) ∧
    hasContentKey ownerBody = false :=
  ⟨rfl, rfl⟩

/-- C5 counterexample: the coercion of `target` to "policy" when a
`policySubtype` is supplied exists only in `getResourceDetails`.  For
action=list with target="service" and policyType="node", the dispatcher
fetches the SERVICES collection endpoint, not the node-policy endpoint the
coerced target="policy" request fetches — so list does not behave "exactly
as if target=policy had been supplied". -/
theorem c5_counterexample :
    toolCallback cfg0 envOkOwner ⟨"list", "service", some ("node"), some ("n"), none⟩
      = Except.ok (textEnvelope (stringify ownerBody), [⟨"EX/org/services", stdHeaders⟩]) ∧
    toolCallback cfg0 envOkOwner ⟨"list", "policy", some ("node"), some ("n"), none⟩
      = Except.ok (textEnvelope (stringify ownerBody),
          [⟨"EX/org/business/policies/nodes/n/policy", stdHeaders⟩]) ∧
    ("EX/org/services" : String) ≠ "EX/org/business/policies/nodes/n/policy" :=
  ⟨rfl, rfl, by decide⟩

/-- C6 counterexample: `toolCallback` is not total over its public boundary.
For action=list with a target outside the three known values,
`listResources` throws its invalid-target `Error` BEFORE its try block, and
`toolCallback` awaits it unguarded, so the promise rejects instead of
resolving to a normalized response value. -/
theorem c6_counterexample :
    toolCallback cfg0 envOkOwner ⟨"list", "deployment", some ("node"), some ("n"), none⟩
      = Except.error
          ("Invalid target type: deployment. Must be one of \x27service\x27, \x27node\x27, or \x27policy\x27.") :=
  rfl

/-- C7 counterexample: for action=list, target=policy, policySubtype=node
with `name` absent, the claim says the full policy collection is fetched.
The code instead returns the placeholder envelope "Details for policy named
undefined" and performs NO network call (empty call list). -/
theorem c7_counterexample :
    listResources cfg0 envOkOwner ("policy") none (some ("node"))
      = Except.ok (textEnvelope ("Details for policy named undefined"), []) :=
  rfl

/-- C3 as amended: failure paths always carry the `{content: [...]}` shape
and every `listResources` result has a top-level "content" key, but a
successful remote fetch in `getResourceDetails` and `getResourceStatus`
returns the parsed remote JSON unmodified, so its result has the envelope
shape only when the remote body itself happens to contain a top-level
"content" key. -/
theorem c3_amended_envelope_shapes (cfg : Config) (env : String → FetchOutcome)
    (target : String) (name pt : Option String) (j : Json) (st : Nat) (stx : String)
    (hn : strFalsy name = false) (hst : ¬ (200 ≤ st ∧ st ≤ 299)) :
    (∀ r cs, listResources cfg env target name pt = Except.ok (r, cs) → hasContentKey r = true) ∧
    getResourceDetails cfg (constOk j) ("service") name none
      = (j, [⟨cfg.exchangeUrl ++ "/" ++ cfg.org ++ "/services/" ++ jsStr name,
          ("Accept", "application/json") :: authHeader cfg⟩]) ∧
    getResourceStatus cfg (constOk j) ("node") name
      = (j, [⟨cfg.exchangeUrl ++ "/" ++ cfg.org ++ "/nodes/" ++ jsStr name ++ "/status",
          ("Accept", "application/json") :: authHeader cfg⟩]) ∧
    hasContentKey (makeHttpRequest (fun _ => FetchOutcome.resp st stx j) ("u") []).1 = true := by
  refine ⟨listResources_ok_hasContentKey cfg env target name pt, ?_, ?_, ?_⟩
  · have hsn : strFalsy none = true := rfl
    simp [getResourceDetails, normalizeTarget, strTruthy, hsn, hn, constOk, makeHttpRequest]
  · simp [getResourceStatus, constOk, makeHttpRequest]
  · simp [makeHttpRequest, hst, getErrorMessage]
    exact hasContentKey_textEnvelope _

/-- C3 witness: the amended theorem applied at a concrete input. -/
theorem c3_witness :
    getResourceDetails cfg0 (constOk ownerBody) ("service") (some ("foo")) none
      = (ownerBody, [⟨"EX/org/services/foo", stdHeaders⟩]) :=
  (c3_amended_envelope_shapes cfg0 envOkOwner ("service") (some ("foo")) none
    ownerBody 404 ("Not Found") rfl (by decide)).2.1

/-- C5 as amended: only the details action performs the target coercion.
When `policySubtype` is truthy, `getResourceDetails` behaves exactly as if
target="policy" had been supplied, and the normalization is idempotent;
the list action (see the counterexample) routes by the supplied target
unchanged. -/
theorem c5_amended_details_normalization (cfg : Config) (env : String → FetchOutcome)
    (target : String) (name pt : Option String) (hpt : strTruthy pt = true) :
    getResourceDetails cfg env target name pt = getResourceDetails cfg env ("policy") name pt ∧
    normalizeTarget (normalizeTarget target pt) pt = normalizeTarget target pt := by
  have h1 : normalizeTarget target pt = "policy" := by
    unfold normalizeTarget
    by_cases h : target = "policy"
    · simp [h]
    · simp [h, hpt]
  have h2 : normalizeTarget ("policy") pt = "policy" := by simp [normalizeTarget]
  constructor
  · unfold getResourceDetails
    rw [h1, h2]
  · rw [h1, h2]

/-- C5 witness: the amended theorem applied at a concrete input. -/
theorem c5_witness :
    getResourceDetails cfg0 envOkOwner ("service") (some ("n")) (some ("node"))
      = getResourceDetails cfg0 envOkOwner ("policy") (some ("n")) (some ("node")) ∧
    normalizeTarget (normalizeTarget ("service") (some ("node"))) (some ("node"))
      = normalizeTarget ("service") (some ("node")) :=
  c5_amended_details_normalization cfg0 envOkOwner ("service") (some ("n")) (some ("node")) rfl

/-- C6 as amended: the dispatcher's public entry point rejects (throws
across its boundary) EXACTLY when action=list is combined with a target
outside the three known values — the invalid-target throw sits before
`listResources`'s try block and `toolCallback` awaits it unguarded.  Every
other input, whatever its action, target, policySubtype, name or data,
resolves to a normalized response value. -/
theorem c6_amended_no_throw_iff (cfg : Config) (env : String → FetchOutcome) (p : Params) :
    (∃ msg, toolCallback cfg env p = Except.error msg) ↔
      (p.action = "list" ∧ ¬ (p.target = "service" ∨ p.target = "node" ∨ p.target = "policy")) := by
  constructor
  · rintro ⟨msg, h⟩
    unfold toolCallback at h
    by_cases ha : p.action = "list"
    · rw [if_pos ha] at h
      refine ⟨ha, fun hv => ?_⟩
      obtain ⟨v, hv2⟩ := listResources_valid_isOk cfg env p.target p.name p.policyType hv
      rw [hv2] at h
      exact Except.noConfusion h
    · rw [if_neg ha] at h
      exfalso
      repeat' split at h
      all_goals exact Except.noConfusion h
  · rintro ⟨ha, hv⟩
    refine ⟨"Invalid target type: " ++ p.target ++
      ". Must be one of \x27service\x27, \x27node\x27, or \x27policy\x27.", ?_⟩
    unfold toolCallback
    rw [if_pos ha]
    unfold listResources
    rw [if_pos hv]

/-- Call-list projection of `listResources`: which outbound requests an
invocation makes (empty when it throws or returns without fetching). -/
def listCalls (cfg : Config) (env : String → FetchOutcome) (target : String)
    (name pt : Option String) : List HttpCall :=
  match listResources cfg env target name pt with
  | Except.ok rc => rc.2
  | Except.error _ => []

/-- The content-key passthrough-or-wrap step preserves the recorded call
list either way. -/
theorem contentSwitch_calls (a : Json × List HttpCall) :
    (match (if hasContentKey a.1 = true then Except.ok (a.1, a.2)
        else Except.ok (textEnvelope (stringify a.1), a.2) :
          Except String (Json × List HttpCall)) with
      | Except.ok rc => rc.2
      | Except.error _ => []) = a.2 := by
  cases hc : hasContentKey a.1 <;> simp [hc]

/-- C7 as amended: for action=list with target=policy, policySubtype=node
and a truthy name, exactly the single node-policy endpoint is fetched; with
policySubtype=node and a falsy name, a placeholder envelope is returned and
NOTHING is fetched (the claim said the full policy collection); in every
other target=policy case the full policy collection is fetched; for
target=node or target=service the plural collection endpoint scoped to the
configured organization is fetched. -/
theorem c7_amended_list_routing (cfg : Config) (env : String → FetchOutcome)
    (target : String) (name pt : Option String) :
    (strFalsy name = true →
      listResources cfg env ("policy") name (some ("node"))
        = Except.ok (textEnvelope ("Details for policy named " ++ jsStr name), [])) ∧
    (strFalsy name = false →
      listCalls cfg env ("policy") name (some ("node"))
        = [⟨cfg.exchangeUrl ++ "/" ++ cfg.org ++ "/business/policies/nodes/" ++
            jsStr name ++ "/policy", ("Accept", "application/json") :: authHeader cfg⟩]) ∧
    (¬ pt = some ("node") →
      listCalls cfg env ("policy") name pt
        = [⟨cfg.exchangeUrl ++ "/" ++ cfg.org ++ "/business/policies",
            ("Accept", "application/json") :: authHeader cfg⟩]) ∧
    (target = "service" ∨ target = "node" →
      listCalls cfg env target name pt
        = [⟨cfg.exchangeUrl ++ "/" ++ cfg.org ++ "/" ++ target ++ "s",
            ("Accept", "application/json") :: authHeader cfg⟩]) := by
  refine ⟨?_, ?_, ?_, ?_⟩
  · intro hn
    unfold listResources
    rw [if_neg (by decide), if_pos rfl, if_pos rfl, if_pos hn]
    rfl
  · intro hn
    unfold listCalls listResources
    rw [if_neg (by decide), if_pos rfl, if_pos rfl, if_neg (by simp [hn])]
    dsimp only
    exact contentSwitch_calls _
  · intro hpt
    unfold listCalls listResources
    rw [if_neg (by decide), if_pos rfl, if_neg hpt]
    dsimp only
    exact contentSwitch_calls _
  · intro ht
    rcases ht with h | h
    all_goals
      subst h
      unfold listCalls listResources
      rw [if_neg (by decide), if_neg (by decide)]
      dsimp only
      exact contentSwitch_calls _

/-- C7 witness: the amended routing theorem applied at concrete inputs that
discharge each hypothesis. -/
theorem c7_witness :
    listResources cfg0 envOkOwner ("policy") none (some ("node"))
      = Except.ok (textEnvelope ("Details for policy named undefined"), []) ∧
    listCalls cfg0 envOkOwner ("policy") (some ("n")) (some ("node"))
      = [⟨"EX/org/business/policies/nodes/n/policy", stdHeaders⟩] ∧
    listCalls cfg0 envOkOwner ("policy") (some ("n")) (some ("service"))
      = [⟨"EX/org/business/policies", stdHeaders⟩] ∧
    listCalls cfg0 envOkOwner ("service") (some ("n")) none
      = [⟨"EX/org/services", stdHeaders⟩] :=
  ⟨(c7_amended_list_routing cfg0 envOkOwner ("x") none (some ("node"))).1 rfl,
   (c7_amended_list_routing cfg0 envOkOwner ("x") (some ("n")) (some ("node"))).2.1 rfl,
   (c7_amended_list_routing cfg0 envOkOwner ("x") (some ("n")) (some ("service"))).2.2.1 (by decide),
   (c7_amended_list_routing cfg0 envOkOwner ("service") (some ("n")) none).2.2.2 (Or.inl rfl)⟩

/-- C8: for details, delete and status with a falsy name, and for create
with an absent data payload, `toolCallback` returns the missing-parameter
error envelope produced before the handler runs, and the recorded call list
is empty — the Resource Client is never invoked. -/
theorem c8_missing_param_no_network (cfg : Config) (env : String → FetchOutcome) (p : Params) :
    (p.action = "details" → strFalsy p.name = true →
      toolCallback cfg env p = Except.ok
        (getErrorMessage (ErrValue.stringVal ("Name is required for details action")), [])) ∧
    (p.action = "delete" → strFalsy p.name = true →
      toolCallback cfg env p = Except.ok
        (getErrorMessage (ErrValue.stringVal ("Name is required for delete action")), [])) ∧
    (p.action = "status" → strFalsy p.name = true →
      toolCallback cfg env p = Except.ok
        (getErrorMessage (ErrValue.stringVal ("Name is required for status action")), [])) ∧
    (p.action = "create" → p.data = none →
      toolCallback cfg env p = Except.ok
        (getErrorMessage (ErrValue.stringVal ("Data is required for create action")), [])) := by
  refine ⟨?_, ?_, ?_, ?_⟩
  all_goals intro ha h
  all_goals simp [toolCallback, ha, h, dataFalsy]

/-- C8 witness: the theorem applied at concrete inputs discharging its
hypotheses. -/
theorem c8_witness :
    toolCallback cfg0 envOkOwner ⟨"details", "service", none, none, none⟩
      = Except.ok (getErrorMessage (ErrValue.stringVal ("Name is required for details action")), []) ∧
    toolCallback cfg0 envOkOwner ⟨"create", "policy", none, some ("n"), none⟩
      = Except.ok (getErrorMessage (ErrValue.stringVal ("Data is required for create action")), []) :=
  ⟨(c8_missing_param_no_network cfg0 envOkOwner ⟨"details", "service", none, none, none⟩).1 rfl rfl,
   (c8_missing_param_no_network cfg0 envOkOwner
     ⟨"create", "policy", none, some ("n"), none⟩).2.2.2 rfl rfl⟩

/-- A registry mutation scoped to one creation leaves every other key
untouched. -/
theorem applyEvent_other (c1 : Creation) (e : SessionEvent) (reg : Registry)
    (k : String) (h : ¬ k = c1.sid) : applyEvent c1 e reg k = reg k := by
  cases e <;> exact if_neg h

/-- C9: the registry (a record keyed by session id) holds at most one entry
per identifier; for a given creation, both registry writes — the POST
handler's explicit store and the transport's onsessioninitialized callback —
store that creation's server/transport pair, so across any interleaving of
events whose session id belongs to the creation, a stored entry always
carries the bound pair (fixed from creation to removal); and immediately
after the transport's close signal, lookup of the identifier returns
absent. -/
theorem c9_registry_invariant :
    (∀ (c : Creation) (tr : List (Creation × SessionEvent)) (reg : Registry),
      (∀ p ∈ tr, (p.1).sid = c.sid → (p.1).server = c.server ∧ (p.1).transport = c.transport) →
      (∀ ent, reg c.sid = some ent → ent.server = c.server ∧ ent.transport = c.transport) →
      ∀ ent, runTrace tr reg c.sid = some ent →
        ent.server = c.server ∧ ent.transport = c.transport) ∧
    (∀ (c : Creation) (reg : Registry),
      applyEvent c SessionEvent.explicitStore reg c.sid = some ⟨c.server, c.transport, none⟩ ∧
      applyEvent c SessionEvent.initializedCallback reg c.sid
        = some ⟨c.server, c.transport, some c.initialHeaders⟩) ∧
    (∀ (c : Creation) (reg : Registry),
      applyEvent c SessionEvent.closeSignal reg c.sid = none) ∧
    (∀ (reg : Registry) (sid : String) (e1 e2 : SessionEntry),
      reg sid = some e1 → reg sid = some e2 → e1 = e2) := by
  refine ⟨?_, ?_, ?_, ?_⟩
  · intro c tr
    induction tr with
    | nil =>
        intro reg _ h0 ent h
        exact h0 ent h
    | cons p rest ih =>
        intro reg hwf h0 ent h
        obtain ⟨c1, e1⟩ := p
        refine ih (applyEvent c1 e1 reg)
          (fun q hq hs => hwf q (List.mem_cons_of_mem _ hq) hs) ?_ ent h
        intro ent2 h2
        by_cases hsid : c.sid = c1.sid
        · have hpair := hwf (c1, e1) (List.mem_cons_self _ _) hsid.symm
          cases e1
          · rw [show applyEvent c1 SessionEvent.explicitStore reg c.sid
                = some ⟨c1.server, c1.transport, none⟩ from if_pos hsid] at h2
            cases h2
            exact ⟨hpair.1, hpair.2⟩
          · rw [show applyEvent c1 SessionEvent.initializedCallback reg c.sid
                = some ⟨c1.server, c1.transport, some c1.initialHeaders⟩ from if_pos hsid] at h2
            cases h2
            exact ⟨hpair.1, hpair.2⟩
          · rw [show applyEvent c1 SessionEvent.closeSignal reg c.sid = none
                from if_pos hsid] at h2
            exact Option.noConfusion h2
        · rw [applyEvent_other c1 e1 reg c.sid hsid] at h2
          exact h0 ent2 h2
  · intro c reg
    exact ⟨if_pos rfl, if_pos rfl⟩
  · intro c reg
    exact if_pos rfl
  · intro reg sid e1 e2 h1 h2
    rw [h1] at h2
    cases h2
    rfl

/-- The creation closure used in the C9 witness. -/
def c0 : Creation := ⟨"s1", 1, 2, []⟩

/-- A trace where the explicit store and the initialized callback both fire
for `c0`. -/
def tr0 : List (Creation × SessionEvent) :=
  [(c0, SessionEvent.explicitStore), (c0, SessionEvent.initializedCallback)]

/-- C9 witness: the invariant applied to the concrete two-write trace. -/
theorem c9_witness :
    (⟨1, 2, some []⟩ : SessionEntry).server = c0.server ∧
    (⟨1, 2, some []⟩ : SessionEntry).transport = c0.transport :=
  c9_registry_invariant.1 c0 tr0 emptyReg (by decide)
    (fun _ h => Option.noConfusion h) ⟨1, 2, some []⟩ rfl

/-- C10: in `listResources`, a 2xx remote JSON body is wrapped in a text
envelope exactly when its top level lacks a "content" key: a body that has
one is returned unmodified (indistinguishable at the public interface from
the Resource Client's error envelope), and this passthrough-or-wrap applies
on every fetching branch. -/
theorem c10_content_passthrough (cfg : Config) (j : Json) (target : String)
    (name pt : Option String) :
    (pt = some ("node") → strFalsy name = false →
      listResources cfg (constOk j) ("policy") name pt
        = Except.ok ((if hasContentKey j = true then j else textEnvelope (stringify j)),
            [⟨cfg.exchangeUrl ++ "/" ++ cfg.org ++ "/business/policies/nodes/" ++
              jsStr name ++ "/policy", ("Accept", "application/json") :: authHeader cfg⟩])) ∧
    (¬ pt = some ("node") →
      listResources cfg (constOk j) ("policy") name pt
        = Except.ok ((if hasContentKey j = true then j else textEnvelope (stringify j)),
            [⟨cfg.exchangeUrl ++ "/" ++ cfg.org ++ "/business/policies",
              ("Accept", "application/json") :: authHeader cfg⟩])) ∧
    (target = "service" ∨ target = "node" →
      listResources cfg (constOk j) target name pt
        = Except.ok ((if hasContentKey j = true then j else textEnvelope (stringify j)),
            [⟨cfg.exchangeUrl ++ "/" ++ cfg.org ++ "/" ++ target ++ "s",
              ("Accept", "application/json") :: authHeader cfg⟩])) := by
  refine ⟨?_, ?_, ?_⟩
  · intro hpt hn
    subst hpt
    unfold listResources
    rw [if_neg (by decide), if_pos rfl, if_pos rfl, if_neg (by simp [hn])]
    dsimp only
    cases hc : hasContentKey ((makeHttpRequest (constOk j)
        (cfg.exchangeUrl ++ "/" ++ cfg.org ++ "/business/policies/nodes/" ++
          jsStr name ++ "/policy") (authHeader cfg)).1) <;>
      simp [hc, makeHttpRequest, constOk] at * <;> simp [hc]
  · intro hpt
    unfold listResources
    rw [if_neg (by decide), if_pos rfl, if_neg hpt]
    dsimp only
    cases hc : hasContentKey ((makeHttpRequest (constOk j)
        (cfg.exchangeUrl ++ "/" ++ cfg.org ++ "/business/policies")
        (authHeader cfg)).1) <;>
      simp [hc, makeHttpRequest, constOk] at * <;> simp [hc]
  · intro ht
    rcases ht with h | h
    all_goals
      subst h
      unfold listResources
      rw [if_neg (by decide), if_neg (by decide)]
      dsimp only
      cases hc : hasContentKey ((makeHttpRequest (constOk j)
          (cfg.exchangeUrl ++ "/" ++ cfg.org ++ "/" ++ _ ++ "s")
          (authHeader cfg)).1) <;>
        simp [hc, makeHttpRequest, constOk] at * <;> simp [hc]

/-- C10 witness: passthrough of a body that already has a "content" key,
and wrapping of one that does not. -/
theorem c10_witness :
    listResources cfg0 (constOk (Json.obj [("content", Json.num 3)])) ("policy")
        (some ("n")) (some ("node"))
      = Except.ok (Json.obj [("content", Json.num 3)],
          [⟨"EX/org/business/policies/nodes/n/policy", stdHeaders⟩]) ∧
    listResources cfg0 (constOk ownerBody) ("service") (some ("n")) none
      = Except.ok (textEnvelope (stringify ownerBody), [⟨"EX/org/services", stdHeaders⟩]) :=
  ⟨(c10_content_passthrough cfg0 (Json.obj [("content", Json.num 3)]) ("x")
      (some ("n")) (some ("node"))).1 rfl rfl,
   (c10_content_passthrough cfg0 ownerBody ("service") (some ("n")) none).2.2 (Or.inl rfl)⟩
